import Mathlib

/-!
Verification of the gesture-to-scene-state mapping and the photo-focus state
machine of an interactive browser-based 3D holiday visualization.

The definitions below are a shallow embedding, over exact rational
arithmetic, of:

* the per-frame gesture interpretation of the main gesture controller
  variant and of the legacy variant (hand landmarks to rotation,
  dispersion, cursor and pinch signal, and the hand-lost defaults),
* the guarded inference tick around the hand-landmark detector
  (degenerate-frame skip, detector-exception skip, rescheduling),
* the per-frame focus transition of the PhotoGroup component
  (progress smoothing with snap, the locked-pose cache, pose
  interpolation),
* the per-frame scene yaw integration with its damping multipliers and the
  pinch-driven random photo selection of the Scene component, together
  with the mouse-mode click toggle and the pointer-missed handler.

Rendering-library primitives whose exact values are irrational
(Euler-angle-to-quaternion conversion, the trigonometric interior of
quaternion slerp, the square root inside Euclidean distances, the world
matrix data of scene-graph parents) are abstracted as function parameters
or inputs; every claim proved here depends only on branches of those
library functions that the library computes exactly (slerp at t = 0 and
t = 1 returns its arguments verbatim).
-/

/-- Linear interpolation, following THREE.MathUtils.lerp(x, y, t) =
(1 - t) * x + t * y. -/
def mathLerp (x y t : ℚ) : ℚ := (1 - t) * x + t * y

/-- Exact rational stand-in for a THREE.Vector3 value. -/
structure Vec3 where
  x : ℚ
  y : ℚ
  z : ℚ
deriving DecidableEq, Repr

/-- Componentwise THREE.Vector3.lerpVectors(v1, v2, alpha):
each component is v1 + (v2 - v1) * alpha. -/
def lerpVectors (v1 v2 : Vec3) (alpha : ℚ) : Vec3 :=
  { x := v1.x + (v2.x - v1.x) * alpha
    y := v1.y + (v2.y - v1.y) * alpha
    z := v1.z + (v2.z - v1.z) * alpha }

/-- Vector addition (THREE.Vector3.add). -/
def vecAdd (a b : Vec3) : Vec3 := { x := a.x + b.x, y := a.y + b.y, z := a.z + b.z }

/-- Scalar multiplication (THREE.Vector3.multiplyScalar). -/
def vecMulScalar (v : Vec3) (s : ℚ) : Vec3 := { x := v.x * s, y := v.y * s, z := v.z * s }

/-- Exact rational stand-in for a THREE.Quaternion value. -/
structure QuatQ where
  x : ℚ
  y : ℚ
  z : ℚ
  w : ℚ
deriving DecidableEq, Repr

/-- THREE.Quaternion.invert, which conjugates (the quaternion is assumed to
have unit length by the library). -/
def quatInvert (q : QuatQ) : QuatQ := { x := -q.x, y := -q.y, z := -q.z, w := q.w }

/-- THREE.Quaternion.multiplyQuaternions(a, b). -/
def quatMultiply (a b : QuatQ) : QuatQ :=
  { x := a.x * b.w + a.w * b.x + a.y * b.z - a.z * b.y
    y := a.y * b.w + a.w * b.y + a.z * b.x - a.x * b.z
    z := a.z * b.w + a.w * b.z + a.x * b.y - a.y * b.x
    w := a.w * b.w - a.x * b.x - a.y * b.y - a.z * b.z }

/-- THREE.Vector3.applyQuaternion: v + 2 w (q × v) + 2 q × (q × v),
written exactly as the library computes it via t = 2 (q.xyz × v). -/
def applyQuaternion (v : Vec3) (q : QuatQ) : Vec3 :=
  let tx := 2 * (q.y * v.z - q.z * v.y)
  let ty := 2 * (q.z * v.x - q.x * v.z)
  let tz := 2 * (q.x * v.y - q.y * v.x)
  { x := v.x + q.w * tx + q.y * tz - q.z * ty
    y := v.y + q.w * ty + q.z * tx - q.x * tz
    z := v.z + q.w * tz + q.x * ty - q.y * tx }

/-- Column-major 4x4 matrix, with fields named after the element indices of
THREE.Matrix4.elements. -/
structure Mat4 where
  e0 : ℚ
  e1 : ℚ
  e2 : ℚ
  e3 : ℚ
  e4 : ℚ
  e5 : ℚ
  e6 : ℚ
  e7 : ℚ
  e8 : ℚ
  e9 : ℚ
  e10 : ℚ
  e11 : ℚ
  e12 : ℚ
  e13 : ℚ
  e14 : ℚ
  e15 : ℚ
deriving DecidableEq, Repr

/-- THREE.Vector3.applyMatrix4 with its perspective divide. -/
def applyMatrix4 (v : Vec3) (m : Mat4) : Vec3 :=
  let w := 1 / (m.e3 * v.x + m.e7 * v.y + m.e11 * v.z + m.e15)
  { x := (m.e0 * v.x + m.e4 * v.y + m.e8 * v.z + m.e12) * w
    y := (m.e1 * v.x + m.e5 * v.y + m.e9 * v.z + m.e13) * w
    z := (m.e2 * v.x + m.e6 * v.y + m.e10 * v.z + m.e14) * w }

/-- THREE.Quaternion.slerp structure: the library returns its first argument
verbatim at t = 0 and its second argument verbatim at t = 1 (explicit early
returns in the library source); the interior 0 < t < 1 case evaluates
trigonometric functions with no exact rational value and is therefore
abstracted as the parameter mid. No claim below depends on interior values. -/
def slerpQuaternions (mid : QuatQ → QuatQ → ℚ → QuatQ) (qa qb : QuatQ) (t : ℚ) : QuatQ :=
  if t = 0 then qa else if t = 1 then qb else mid qa qb t

/-- The two interaction modes of the application. -/
inductive InteractionMode where
  | mouse
  | gesture
deriving DecidableEq, Repr

-- Gesture interpreter (main variant and legacy variant of the
-- gesture controller's per-frame hand-landmark interpretation).

/-- One normalized hand landmark; only the x and y coordinates are read by
the interpreter. -/
structure Landmark where
  x : ℚ
  y : ℚ
deriving DecidableEq, Repr

/-- The landmarks the interpreter reads out of the 21-point hand pose:
indices 0 (wrist), 4 (thumb tip), 8 (index tip) and 12 (middle tip). -/
structure HandPose where
  wrist : Landmark
  thumbTip : Landmark
  indexTip : Landmark
  middleTip : Landmark
deriving DecidableEq, Repr

/-- The per-frame update object the main gesture controller variant passes
to onUpdate. -/
structure GestureUpdate where
  rotation : ℚ
  dispersion : ℚ
  isHandDetected : Bool
  cursor : ℚ × ℚ
  isPinching : Bool
deriving DecidableEq, Repr

/-- Clamped linear remap of the wrist-to-middle-fingertip distance to the
dispersion control value: min(max((dist - 0.15) / (0.35 - 0.15), 0), 1),
exactly as in the gesture controller. -/
def dispersionOfDist (dist : ℚ) : ℚ :=
  min (max ((dist - 0.15) / (0.35 - 0.15)) 0) 1

/-- Hand-present branch of the main gesture controller variant. The square
root of the library Math.sqrt is abstracted as the parameter sqrtQ and is
applied to the squared Euclidean distances the code feeds it. -/
def interpretPose (sqrtQ : ℚ → ℚ) (hand : HandPose) : GestureUpdate :=
  let rotationValue := (hand.wrist.x - 0.5) * 5
  let dist := sqrtQ ((hand.middleTip.x - hand.wrist.x) ^ 2 +
    (hand.middleTip.y - hand.wrist.y) ^ 2)
  let dispersionValue := dispersionOfDist dist
  let cx := hand.indexTip.x * 2 - 1
  let cy := -(hand.indexTip.y * 2 - 1)
  let pinchDist := sqrtQ ((hand.thumbTip.x - hand.indexTip.x) ^ 2 +
    (hand.thumbTip.y - hand.indexTip.y) ^ 2)
  { rotation := rotationValue
    dispersion := dispersionValue
    isHandDetected := true
    cursor := (cx, cy)
    isPinching := decide (pinchDist < 0.05) }

/-- Hand-lost branch of the main gesture controller variant: rotation 0,
dispersion 0, hand not detected, cursor reset to the origin, no pinch. -/
def handLostUpdate : GestureUpdate :=
  { rotation := 0
    dispersion := 0
    isHandDetected := false
    cursor := (0, 0)
    isPinching := false }

/-- The main variant's interpretation of a processed detector result:
either the hand-present computation or the explicit hand-lost reset. -/
def interpretFrame (sqrtQ : ℚ → ℚ) : Option HandPose → GestureUpdate
  | some hand => interpretPose sqrtQ hand
  | none => handLostUpdate

/-- The per-frame update object of the legacy gesture controller variant,
which carries no cursor and no pinch flag. -/
structure GestureUpdateLegacy where
  rotation : ℚ
  dispersion : ℚ
  isHandDetected : Bool
deriving DecidableEq, Repr

/-- Hand-present branch of the legacy variant: same rotation formula, and
the inverted dispersion convention 1 - clamp((dist - 0.15) / (0.35 - 0.15)). -/
def interpretPoseLegacy (sqrtQ : ℚ → ℚ) (hand : HandPose) : GestureUpdateLegacy :=
  { rotation := (hand.wrist.x - 0.5) * 5
    dispersion := 1 - dispersionOfDist (sqrtQ ((hand.middleTip.x - hand.wrist.x) ^ 2 +
      (hand.middleTip.y - hand.wrist.y) ^ 2))
    isHandDetected := true }

/-- The legacy variant's interpretation of a processed detector result; on
hand loss it emits the small idle-spin rotation constant 0.1. -/
def interpretFrameLegacy (sqrtQ : ℚ → ℚ) : Option HandPose → GestureUpdateLegacy
  | some hand => interpretPoseLegacy sqrtQ hand
  | none => { rotation := 0.1, dispersion := 0, isHandDetected := false }

-- The guarded inference tick (predictWebcam of the main variant).

/-- The video-element fields the tick's degenerate-frame guard reads. -/
structure VideoFrame where
  readyState : ℕ
  videoWidth : ℕ
  videoHeight : ℕ
  currentTime : ℚ
deriving DecidableEq, Repr

/-- Outcome of the detectForVideo library call: either an exception (caught
by the tick's try/catch) or a result carrying zero or one hand pose. -/
inductive DetectOutcome where
  | err
  | ok (pose : Option HandPose)
deriving DecidableEq

/-- The tick-local state: the last processed video timestamp and the most
recently published gesture signal. -/
structure TickState where
  lastVideoTime : ℚ
  published : GestureUpdate
deriving DecidableEq, Repr

/-- Result of one tick: the new state, the signal emitted this tick if any,
and whether the tick rescheduled itself for the next animation frame. -/
structure TickOutcome where
  state : TickState
  emitted : Option GestureUpdate
  rescheduled : Bool
deriving DecidableEq, Repr

/-- One invocation of predictWebcam of the main variant: a liveness check,
the degenerate-frame guard (readyState < 2 or a dimension below 1 skips the
frame and reschedules), the video-timestamp gate, the detector call whose
exception is caught locally (publishing nothing), and the interpretation of
a successful result. -/
def predictWebcamTick (sqrtQ : ℚ → ℚ) (isRunning : Bool) (video : VideoFrame)
    (detect : DetectOutcome) (s : TickState) : TickOutcome :=
  if !isRunning then
    { state := s, emitted := none, rescheduled := false }
  else if video.readyState < 2 ∨ video.videoWidth < 1 ∨ video.videoHeight < 1 then
    { state := s, emitted := none, rescheduled := true }
  else if video.currentTime ≠ s.lastVideoTime then
    match detect with
    | DetectOutcome.err =>
        { state := { s with lastVideoTime := video.currentTime }
          emitted := none, rescheduled := true }
    | DetectOutcome.ok pose =>
        let u := interpretFrame sqrtQ pose
        { state := { lastVideoTime := video.currentTime, published := u }
          emitted := some u, rescheduled := true }
  else
    { state := s, emitted := none, rescheduled := true }

-- PhotoGroup focus state machine.

/-- One per-frame focusProgress update of PhotoGroup: a lerp toward the
target with the given blend factor (10 * delta in the code), followed by
the snap rule that sets progress exactly to the target once the result is
within 0.01 of it. -/
def photoProgressStep (p target blend : ℚ) : ℚ :=
  let lerped := mathLerp p target blend
  if |lerped - target| < 0.01 then target else lerped

/-- Iterated focusProgress updates over a list of (target, blend) pairs. -/
def photoProgressRun : ℚ → List (ℚ × ℚ) → ℚ
  | p, [] => p
  | p, s :: ss => photoProgressRun (photoProgressStep p s.1 s.2) ss

-- Smoothed dispersion uniform (ChristmasTreeParticles).

/-- Per-frame target of the uDispersion shader uniform: the gesture
dispersion in gesture mode, 0 otherwise. -/
def uDispersionTarget (mode : InteractionMode) (dispersion : ℚ) : ℚ :=
  if mode = InteractionMode.gesture then dispersion else 0

/-- Per-frame update of the uDispersion shader uniform in
ChristmasTreeParticles: a plain lerp with fixed blend factor 0.1. -/
def uDispersionStep (value target : ℚ) : ℚ :=
  mathLerp value target 0.1

-- Shared arithmetic facts about the progress step.

theorem mathLerp_sub_target (p t b : ℚ) : mathLerp p t b - t = (1 - b) * (p - t) := by
  unfold mathLerp; ring

theorem photoProgressStep_mem_unit {p t b : ℚ} (hp0 : 0 ≤ p) (hp1 : p ≤ 1)
    (ht0 : 0 ≤ t) (ht1 : t ≤ 1) (hb0 : 0 ≤ b) (hb1 : b ≤ 1) :
    0 ≤ photoProgressStep p t b ∧ photoProgressStep p t b ≤ 1 := by
  unfold photoProgressStep mathLerp
  dsimp only
  split
  · exact ⟨ht0, ht1⟩
  · constructor
    · nlinarith
    · nlinarith

theorem photoProgressStep_target_one_le {p b : ℚ} (hp1 : p ≤ 1) (hb0 : 0 ≤ b) :
    p ≤ photoProgressStep p 1 b := by
  unfold photoProgressStep mathLerp
  dsimp only
  split
  · exact hp1
  · nlinarith

theorem photoProgressStep_target_one_ub {p b : ℚ} (hp1 : p ≤ 1) (hb1 : b ≤ 1) :
    photoProgressStep p 1 b ≤ 1 := by
  unfold photoProgressStep mathLerp
  dsimp only
  split
  · exact le_refl 1
  · nlinarith

theorem photoProgressStep_target_zero_le {p b : ℚ} (hp0 : 0 ≤ p) (hb0 : 0 ≤ b) :
    photoProgressStep p 0 b ≤ p := by
  unfold photoProgressStep mathLerp
  dsimp only
  split
  · exact hp0
  · nlinarith

theorem photoProgressStep_target_zero_lb {p b : ℚ} (hp0 : 0 ≤ p) (hb1 : b ≤ 1) :
    0 ≤ photoProgressStep p 0 b := by
  unfold photoProgressStep mathLerp
  dsimp only
  split
  · exact le_refl 0
  · nlinarith

theorem photoProgressStep_snap {p t b : ℚ} (hnear : |p - t| < 0.01)
    (hb0 : 0 ≤ b) (hb1 : b ≤ 1) : photoProgressStep p t b = t := by
  unfold photoProgressStep
  rw [if_pos]
  rw [mathLerp_sub_target, abs_mul, abs_of_nonneg (by linarith : (0:ℚ) ≤ 1 - b)]
  calc (1 - b) * |p - t| ≤ 1 * |p - t| := by
        apply mul_le_mul_of_nonneg_right (by linarith) (abs_nonneg _)
    _ < 0.01 := by rw [one_mul]; exact hnear

/-- C6: for every wrist-to-middle-fingertip distance d, the interpreter's
dispersion equals clamp((d - 0.15)/0.2, 0, 1); it is 0 at d = 0.15 and at
d = 0.10, it is 1 at d = 0.35 and at d = 0.50, and it is exactly the value
the emitted gesture signal carries. -/
theorem dispersion_remap_clamp (sqrtQ : ℚ → ℚ) :
    (∀ d : ℚ, dispersionOfDist d = min (max ((d - 0.15) / 0.2) 0) 1) ∧
    dispersionOfDist 0.15 = 0 ∧ dispersionOfDist 0.10 = 0 ∧
    dispersionOfDist 0.35 = 1 ∧ dispersionOfDist 0.50 = 1 ∧
    (∀ hand : HandPose, (interpretPose sqrtQ hand).dispersion =
      dispersionOfDist (sqrtQ ((hand.middleTip.x - hand.wrist.x) ^ 2 +
        (hand.middleTip.y - hand.wrist.y) ^ 2))) := by
  refine ⟨fun d => by norm_num [dispersionOfDist], ?_, ?_, ?_, ?_, fun hand => rfl⟩
  · norm_num [dispersionOfDist]
  · norm_num [dispersionOfDist, max_def, min_def]
  · norm_num [dispersionOfDist, max_def, min_def]
  · norm_num [dispersionOfDist, max_def, min_def]

/-- C7: on a processed frame with zero hands the main variant emits a
signal with the hand not detected, dispersion 0, rotation 0, no pinch and
the cursor reset to the origin, and the legacy variant emits its documented
idle-spin rotation constant 0.1 with dispersion 0 and the hand not
detected. -/
theorem hand_lost_reset_signal (sqrtQ : ℚ → ℚ) :
    interpretFrame sqrtQ none =
      { rotation := 0, dispersion := 0, isHandDetected := false
        cursor := (0, 0), isPinching := false } ∧
    interpretFrameLegacy sqrtQ none =
      { rotation := 0.1, dispersion := 0, isHandDetected := false } :=
  ⟨rfl, rfl⟩

-- Scene rotation controller and selection logic (Scene component).

/-- The gesture-state fields the scene-rotation logic reads. -/
structure YawGesture where
  rotation : ℚ
  dispersion : ℚ
  focusedId : Option ℕ
deriving DecidableEq, Repr

/-- Effective per-frame rotation speed of the Scene component: base speed
0.1 in mouse mode; in gesture mode the gesture rotation value, multiplied
by 0.1 while dispersion exceeds 0.5; in either mode multiplied by 0.05
while some photo is focused. -/
def sceneFrameSpeed (mode : InteractionMode) (g : YawGesture) : ℚ :=
  let speed0 : ℚ := 0.1
  let speed1 :=
    if mode = InteractionMode.gesture then
      if g.dispersion > 0.5 then g.rotation * 0.1 else g.rotation
    else speed0
  if g.focusedId.isSome then speed1 * 0.05 else speed1

/-- One frame of scene yaw integration: the yaw advance is speed times delta. -/
def sceneYawStep (mode : InteractionMode) (g : YawGesture) (yaw delta : ℚ) : ℚ :=
  yaw + sceneFrameSpeed mode g * delta

/-- Scene yaw after a list of frame deltas under a constant gesture state. -/
def sceneYawRun (mode : InteractionMode) (g : YawGesture) : ℚ → List ℚ → ℚ
  | yaw, [] => yaw
  | yaw, d :: ds => sceneYawRun mode g (sceneYawStep mode g yaw d) ds

/-- The gesture-state fields the photo-selection logic reads. -/
structure SelGesture where
  isHandDetected : Bool
  isPinching : Bool
  dispersion : ℚ
deriving DecidableEq, Repr

/-- One frame of the Scene component's photo-selection logic, with photo
identities as naturals and the random draw modelled by the index pick
(Math.floor(Math.random() * photos.length) in the code, so pick is below
photos.length whenever photos is nonempty). Runs only in gesture mode with
a detected hand; a pinch with dispersion above 0.3 while nothing is focused
picks the photo at the random index; ending the pinch or closing the hand
clears the focus; otherwise the focus is unchanged. -/
def selectionStep (mode : InteractionMode) (photos : List ℕ) (g : SelGesture)
    (pick : ℕ) (focusedId : Option ℕ) : Option ℕ :=
  if mode = InteractionMode.gesture ∧ g.isHandDetected = true then
    if g.isPinching = true ∧ g.dispersion > 0.3 ∧ focusedId = none then
      photos.get? pick
    else if g.isPinching = false ∨ g.dispersion ≤ 0.3 then
      none
    else focusedId
  else focusedId

/-- One selection frame: the gesture state it reads and its random draw. -/
structure SelFrame where
  g : SelGesture
  pick : ℕ
deriving DecidableEq, Repr

/-- The focusedId value after each of a list of selection frames. -/
def selectionRun (mode : InteractionMode) (photos : List ℕ) :
    Option ℕ → List SelFrame → List (Option ℕ)
  | _, [] => []
  | f0, fr :: frs =>
      let f1 := selectionStep mode photos fr.g fr.pick f0
      f1 :: selectionRun mode photos f1 frs

/-- Number of frames on which the selection logic selects a photo (the
focus goes from empty to a photo id). -/
def selectionEvents (mode : InteractionMode) (photos : List ℕ) :
    Option ℕ → List SelFrame → ℕ
  | _, [] => 0
  | f0, fr :: frs =>
      let f1 := selectionStep mode photos fr.g fr.pick f0
      (if f0 = none ∧ f1 ≠ none then 1 else 0) + selectionEvents mode photos f1 frs

/-- Mouse-mode click handler on a photo: clicking the focused photo clears
the focus, clicking any other photo focuses it; inert outside mouse mode. -/
def mouseClickToggle (mode : InteractionMode) (focusedId : Option ℕ)
    (photoId : ℕ) : Option ℕ :=
  if mode = InteractionMode.mouse then
    if focusedId = some photoId then none else some photoId
  else focusedId

/-- The canvas onPointerMissed handler: clears the focus unconditionally. -/
def pointerMissedFocus (_focusedId : Option ℕ) : Option ℕ := none

-- C3 (smoothing and snap).

/-- C3 counterexample: the uDispersion smoothing of ChristmasTreeParticles
has no snap rule. With the previous value 0.005, already within 0.01 of
the unchanged target 0, one smoothing step yields 0.0045, not exactly the
target, so the claim that the snap rule applies to the smoothed dispersion
is false. -/
theorem dispersion_smoothing_no_snap_counterexample :
    |(0.005 : ℚ) - 0| < 0.01 ∧
    uDispersionStep 0.005 0 = 0.0045 ∧ uDispersionStep 0.005 0 ≠ 0 := by
  refine ⟨by rw [abs_lt]; norm_num, by norm_num [uDispersionStep, mathLerp],
    by norm_num [uDispersionStep, mathLerp]⟩

/-- C3 amended: the exponential filter previous + (target - previous) * rate
is applied to both smoothed quantities, but the snap rule only to
focusProgress: the uDispersion update of ChristmasTreeParticles is exactly
the plain filter with rate 0.1 (never snapping), while the focusProgress
update of PhotoGroup, whenever the current value is within 0.01 of an
unchanged target and the blend factor lies in [0, 1], yields exactly the
target. -/
theorem smoothing_snap_amended :
    (∀ v t : ℚ, uDispersionStep v t = v + (t - v) * 0.1) ∧
    (∀ p t b : ℚ, |p - t| < 0.01 → 0 ≤ b → b ≤ 1 → photoProgressStep p t b = t) := by
  constructor
  · intro v t
    unfold uDispersionStep mathLerp
    ring
  · intro p t b hnear hb0 hb1
    exact photoProgressStep_snap hnear hb0 hb1

/-- C3 witness: the amended snap statement at the concrete focusProgress
value 0.995 with target 1 and blend factor 0.5. -/
theorem smoothing_snap_amended_check : photoProgressStep 0.995 1 0.5 = 1 :=
  smoothing_snap_amended.2 0.995 1 0.5 (by rw [abs_lt]; norm_num) (by norm_num) (by norm_num)

-- C4 (focus progress bounds).

/-- C4 counterexample: frame deltas are not clamped, so a single 0.3 second
frame (blend factor 10 * 0.3 = 3) starting from progress 0 with target 1
overshoots to progress 3, leaving [0, 1]; the claimed bounds invariant
fails for arbitrary positive frame deltas. -/
theorem focus_progress_overshoot_counterexample :
    photoProgressStep 0 1 (10 * 0.3) = 3 ∧ ¬ photoProgressStep 0 1 (10 * 0.3) ≤ 1 := by
  constructor
  · norm_num [photoProgressStep, mathLerp]
  · norm_num [photoProgressStep, mathLerp]

/-- C4 amended: starting from any focusProgress in [0, 1] (in particular
from the initial 0), every sequence of per-frame updates with targets in
field {0, 1} and blend factors 10 * delta in (0, 1] keeps focusProgress
within [0, 1] after every update. -/
theorem focus_progress_bounds_amended (steps : List (ℚ × ℚ)) :
    ∀ p : ℚ, 0 ≤ p → p ≤ 1 →
    (∀ s ∈ steps, (s.1 = 0 ∨ s.1 = 1) ∧ 0 < s.2 ∧ s.2 ≤ 1) →
    0 ≤ photoProgressRun p steps ∧ photoProgressRun p steps ≤ 1 := by
  induction steps with
  | nil => intro p hp0 hp1 _; exact ⟨hp0, hp1⟩
  | cons s ss ih =>
      intro p hp0 hp1 hsteps
      obtain ⟨ht, hb0, hb1⟩ := hsteps s (List.mem_cons_self s ss)
      have htmem : 0 ≤ s.1 ∧ s.1 ≤ 1 := by
        rcases ht with h | h <;> rw [h] <;> norm_num
      have hstep := photoProgressStep_mem_unit hp0 hp1 htmem.1 htmem.2 (le_of_lt hb0) hb1
      exact ih (photoProgressStep p s.1 s.2) hstep.1 hstep.2
        (fun t htm => hsteps t (List.mem_cons_of_mem s htm))

/-- C4 witness: the amended bounds at the concrete run from 0 through a
focus-on frame of 50 ms, a focus-on frame of 100 ms and a focus-off frame
of 20 ms. -/
theorem focus_progress_bounds_amended_check :
    0 ≤ photoProgressRun 0 [(1, 0.5), (1, 1), (0, 0.2)] ∧
    photoProgressRun 0 [(1, 0.5), (1, 1), (0, 0.2)] ≤ 1 := by
  refine focus_progress_bounds_amended _ 0 (by norm_num) (by norm_num) ?_
  intro s hs
  fin_cases hs <;> norm_num

-- C8 (degenerate-frame atomicity).

/-- C8: if the video frame is degenerate (readyState below 2 or a dimension
below 1) the running inference tick publishes nothing, keeps the previously
published signal and its timestamp gate unchanged, and reschedules itself;
likewise, if the detection call throws on a fresh frame, nothing is
published, the previously published signal is retained, and the tick
reschedules. -/
theorem degenerate_frame_atomicity (sqrtQ : ℚ → ℚ) :
    (∀ (video : VideoFrame) (detect : DetectOutcome) (s : TickState),
      video.readyState < 2 ∨ video.videoWidth < 1 ∨ video.videoHeight < 1 →
      predictWebcamTick sqrtQ true video detect s =
        { state := s, emitted := none, rescheduled := true }) ∧
    (∀ (video : VideoFrame) (s : TickState),
      ¬(video.readyState < 2 ∨ video.videoWidth < 1 ∨ video.videoHeight < 1) →
      (predictWebcamTick sqrtQ true video DetectOutcome.err s).state.published =
        s.published ∧
      (predictWebcamTick sqrtQ true video DetectOutcome.err s).emitted = none ∧
      (predictWebcamTick sqrtQ true video DetectOutcome.err s).rescheduled = true) := by
  constructor
  · intro video detect s hdeg
    unfold predictWebcamTick
    rw [if_neg (by simp), if_pos hdeg]
  · intro video s hok
    unfold predictWebcamTick
    rw [if_neg (by simp), if_neg hok]
    by_cases htime : video.currentTime ≠ s.lastVideoTime
    · rw [if_pos htime]
      exact ⟨rfl, rfl, rfl⟩
    · rw [if_neg htime]
      exact ⟨rfl, rfl, rfl⟩

/-- C8 witness: the degenerate-frame case at a concrete not-ready video
frame and a concrete tick state. -/
theorem degenerate_frame_atomicity_check :
    predictWebcamTick (fun q => q) true
      { readyState := 0, videoWidth := 0, videoHeight := 0, currentTime := 1 }
      (DetectOutcome.ok none)
      { lastVideoTime := 0, published := handLostUpdate } =
      { state := { lastVideoTime := 0, published := handLostUpdate }
        emitted := none, rescheduled := true } :=
  (degenerate_frame_atomicity (fun q => q)).1 _ _ _ (by norm_num)

-- C9 (yaw accumulation with multiplicative damping).

/-- C9: in gesture mode the effective speed is the gesture rotation value r
times 0.1 when dispersion exceeds 0.5 times 0.05 when a photo is focused,
the two factors composing multiplicatively (both active gives r * 0.005);
each frame advances yaw by speed * delta, so over any frame sequence with
constant gesture state the yaw advances by exactly r times the elapsed time
times the product of the active damping factors. -/
theorem scene_yaw_accumulation :
    (∀ g : YawGesture, sceneFrameSpeed InteractionMode.gesture g =
      g.rotation * (if g.dispersion > 0.5 then 0.1 else 1) *
        (if g.focusedId.isSome then 0.05 else 1)) ∧
    (∀ (g : YawGesture) (yaw delta : ℚ),
      sceneYawStep InteractionMode.gesture g yaw delta =
        yaw + sceneFrameSpeed InteractionMode.gesture g * delta) ∧
    (∀ (g : YawGesture) (yaw : ℚ) (ds : List ℚ),
      sceneYawRun InteractionMode.gesture g yaw ds =
        yaw + sceneFrameSpeed InteractionMode.gesture g * ds.sum) := by
  refine ⟨?_, fun g yaw delta => rfl, ?_⟩
  · intro g
    unfold sceneFrameSpeed
    dsimp only
    rw [if_pos rfl]
    by_cases hd : g.dispersion > 0.5
    · rw [if_pos hd, if_pos hd]
      by_cases hf : g.focusedId.isSome
      · rw [if_pos hf, if_pos hf]
      · rw [if_neg hf, if_neg hf]; ring
    · rw [if_neg hd, if_neg hd]
      by_cases hf : g.focusedId.isSome
      · rw [if_pos hf, if_pos hf]; ring
      · rw [if_neg hf, if_neg hf]; ring
  · intro g yaw ds
    induction ds generalizing yaw with
    | nil => simp [sceneYawRun]
    | cons d ds ih =>
        rw [sceneYawRun, ih, List.sum_cons, sceneYawStep]
        ring

-- Selection lemmas shared by the selection claims.

theorem selectionStep_keeps_focus (photos : List ℕ) (g : SelGesture) (pick : ℕ) (a : ℕ)
    (hh : g.isHandDetected = true) (hp : g.isPinching = true) (hd : g.dispersion > 0.3) :
    selectionStep InteractionMode.gesture photos g pick (some a) = some a := by
  unfold selectionStep
  rw [if_pos ⟨rfl, hh⟩, if_neg (by simp), if_neg]
  intro hcon
  rcases hcon with h | h
  · rw [hp] at h
    exact Bool.noConfusion h
  · linarith

theorem selectionRun_keeps (photos : List ℕ) (a : ℕ) :
    ∀ frs : List SelFrame,
    (∀ fr ∈ frs, fr.g.isHandDetected = true ∧ fr.g.isPinching = true ∧
      fr.g.dispersion > 0.3) →
    selectionRun InteractionMode.gesture photos (some a) frs =
      List.replicate frs.length (some a) ∧
    selectionEvents InteractionMode.gesture photos (some a) frs = 0 := by
  intro frs
  induction frs with
  | nil => intro _; exact ⟨rfl, rfl⟩
  | cons fr frs ih =>
      intro hconds
      obtain ⟨hh, hp, hd⟩ := hconds fr (List.mem_cons_self fr frs)
      have hstep := selectionStep_keeps_focus photos fr.g fr.pick a hh hp hd
      have hrest := ih (fun t ht => hconds t (List.mem_cons_of_mem fr ht))
      constructor
      · rw [selectionRun]
        simp only [hstep, List.length_cons, List.replicate_succ]
        exact congrArg (List.cons (some a)) hrest.1
      · rw [selectionEvents]
        simp only [hstep]
        rw [if_neg (by simp), hrest.2]

/-- C5: if the pinch signal is held for any number of consecutive gesture
frames with the hand detected and dispersion above the 0.3 threshold
throughout, and no photo is focused at the start, then the first frame
focuses the photo at its random index and every subsequent frame keeps that
same focus: exactly one selection event occurs over the whole run, not one
per frame. -/
theorem pinch_selects_exactly_one (photos : List ℕ) (fr : SelFrame)
    (frs : List SelFrame) (hpick : fr.pick < photos.length)
    (hconds : ∀ f ∈ fr :: frs, f.g.isHandDetected = true ∧
      f.g.isPinching = true ∧ f.g.dispersion > 0.3) :
    ∃ a : ℕ, photos.get? fr.pick = some a ∧
      selectionRun InteractionMode.gesture photos none (fr :: frs) =
        List.replicate (frs.length + 1) (some a) ∧
      selectionEvents InteractionMode.gesture photos none (fr :: frs) = 1 := by
  obtain ⟨hh, hp, hd⟩ := hconds fr (List.mem_cons_self fr frs)
  obtain ⟨a, ha⟩ : ∃ a, photos.get? fr.pick = some a := by
    rw [List.get?_eq_get hpick]
    exact ⟨_, rfl⟩
  have hfirst : selectionStep InteractionMode.gesture photos fr.g fr.pick none = some a := by
    unfold selectionStep
    rw [if_pos ⟨rfl, hh⟩, if_pos ⟨hp, hd, rfl⟩]
    exact ha
  have hrest := selectionRun_keeps photos a frs
    (fun t ht => hconds t (List.mem_cons_of_mem fr ht))
  refine ⟨a, ha, ?_, ?_⟩
  · rw [selectionRun]
    simp only [hfirst, List.replicate_succ]
    exact congrArg (List.cons (some a)) hrest.1
  · rw [selectionEvents]
    simp only [hfirst]
    rw [if_pos (by simp), hrest.2]

/-- C5 witness: ten consecutive pinch frames over a two-photo list select
exactly one photo. -/
theorem pinch_selects_exactly_one_check :
    ∃ a : ℕ, [5, 9].get? 0 = some a ∧
      selectionRun InteractionMode.gesture [5, 9] none
        (List.replicate 10 (SelFrame.mk ⟨true, true, 0.4⟩ 0)) =
        List.replicate 10 (some a) ∧
      selectionEvents InteractionMode.gesture [5, 9] none
        (List.replicate 10 (SelFrame.mk ⟨true, true, 0.4⟩ 0)) = 1 := by
  have h := pinch_selects_exactly_one [5, 9] (SelFrame.mk ⟨true, true, 0.4⟩ 0)
    (List.replicate 9 (SelFrame.mk ⟨true, true, 0.4⟩ 0))
    (by norm_num)
    (by
      intro f hf
      have hf2 : f = SelFrame.mk ⟨true, true, 0.4⟩ 0 := by
        rcases List.mem_cons.mp hf with h | h
        · exact h
        · exact List.eq_of_mem_replicate h
      rw [hf2]
      norm_num)
  simpa using h

/-- C10: a gesture-mode render frame in which the hand is not detected
leaves focusedId unchanged (losing the hand does not release a focused
photo); within the gesture selection logic a focused photo is only released
by a frame with the hand detected in which the pinch has ended or
dispersion has dropped to 0.3 or below; and the other two writers are the
mouse-mode click toggle and the pointer-missed handler, which clears
unconditionally. -/
theorem hand_loss_preserves_focus :
    (∀ (photos : List ℕ) (g : SelGesture) (pick : ℕ) (f : Option ℕ),
      g.isHandDetected = false →
      selectionStep InteractionMode.gesture photos g pick f = f) ∧
    (∀ (photos : List ℕ) (g : SelGesture) (pick : ℕ) (a : ℕ),
      selectionStep InteractionMode.gesture photos g pick (some a) = none →
      g.isHandDetected = true ∧ (g.isPinching = false ∨ g.dispersion ≤ 0.3)) ∧
    (∀ i : ℕ, mouseClickToggle InteractionMode.mouse (some i) i = none ∧
      mouseClickToggle InteractionMode.mouse none i = some i) ∧
    (∀ f : Option ℕ, pointerMissedFocus f = none) := by
  refine ⟨?_, ?_, ?_, fun f => rfl⟩
  · intro photos g pick f hh
    unfold selectionStep
    rw [if_neg]
    intro hcon
    rw [hh] at hcon
    exact Bool.noConfusion hcon.2
  · intro photos g pick a hclear
    unfold selectionStep at hclear
    by_cases hh : g.isHandDetected = true
    · refine ⟨hh, ?_⟩
      rw [if_pos ⟨rfl, hh⟩] at hclear
      rw [if_neg (by simp)] at hclear
      by_cases hrel : g.isPinching = false ∨ g.dispersion ≤ 0.3
      · exact hrel
      · rw [if_neg hrel] at hclear
        exact Option.noConfusion hclear
    · rw [if_neg (fun hcon => hh hcon.2)] at hclear
      exact Option.noConfusion hclear
  · intro i
    constructor
    · unfold mouseClickToggle
      rw [if_pos rfl, if_pos rfl]
    · unfold mouseClickToggle
      rw [if_pos rfl, if_neg (by simp)]

/-- C10 witness: a hand-lost gesture frame keeps photo 3 focused. -/
theorem hand_loss_preserves_focus_check :
    selectionStep InteractionMode.gesture [3, 4]
      { isHandDetected := false, isPinching := false, dispersion := 0 } 0 (some 3) =
      some 3 :=
  hand_loss_preserves_focus.1 [3, 4]
    { isHandDetected := false, isPinching := false, dispersion := 0 } 0 (some 3) rfl

-- PhotoGroup focus state machine.

/-- Static data of one photo: its stable identity, its tree position and
its tree Euler rotation. -/
structure PhotoData where
  id : ℕ
  position : Vec3
  rotation : Vec3
deriving DecidableEq, Repr

/-- The cached locked pose captured once focusProgress reaches 0.99. -/
structure LockedState where
  pos : Vec3
  quat : QuatQ
  scale : Vec3
deriving DecidableEq, Repr

/-- The per-photo mutable refs of PhotoGroup: the transition progress and
the locked-state cache. -/
structure PhotoState where
  progress : ℚ
  locked : Option LockedState
deriving DecidableEq, Repr

/-- The world data of the photo group's scene-graph parent as the rendering
library reports it: the inverse of parent.matrixWorld and the parent world
quaternion. -/
structure ParentFrame where
  inverseWorldMatrix : Mat4
  worldQuaternion : QuatQ
deriving DecidableEq, Repr

/-- Everything one PhotoGroup frame callback reads: the shared gesture
state fields, the interaction mode, the frame delta, the camera pose, and
the scene-graph parent data (none models a detached group, the code's
fallback case). -/
structure PhotoFrameInput where
  dispersion : ℚ
  focusedId : Option ℕ
  mode : InteractionMode
  delta : ℚ
  cameraPosition : Vec3
  cameraQuaternion : QuatQ
  parent : Option ParentFrame
deriving DecidableEq, Repr

/-- The rendered transform PhotoGroup writes to its group each frame. -/
structure Pose where
  position : Vec3
  quaternion : QuatQ
  scale : Vec3
deriving DecidableEq, Repr

/-- Tree position of a photo under the active dispersion: the x and z
coordinates scaled by (1 + dispersion), y unchanged. -/
def photoTreePosition (photo : PhotoData) (activeDispersion : ℚ) : Vec3 :=
  { x := photo.position.x * (1 + activeDispersion)
    y := photo.position.y
    z := photo.position.z * (1 + activeDispersion) }

/-- Tree scale of a photo under the active dispersion: uniform
1 + dispersion * 0.5. -/
def photoTreeScale (activeDispersion : ℚ) : Vec3 :=
  { x := 1 + activeDispersion * 0.5
    y := 1 + activeDispersion * 0.5
    z := 1 + activeDispersion * 0.5 }

/-- The freshly computed locked pose: the point 10 units in front of the
camera along its forward direction, transformed into the parent's local
frame, and the camera orientation transformed by the inverse parent world
quaternion. -/
def photoLockedFresh (c : PhotoFrameInput) (par : ParentFrame) : Vec3 × QuatQ :=
  let cameraForward := applyQuaternion { x := 0, y := 0, z := -1 } c.cameraQuaternion
  let targetWorldPos := vecAdd c.cameraPosition (vecMulScalar cameraForward 10)
  let lockedPos := applyMatrix4 targetWorldPos par.inverseWorldMatrix
  let lockedQuat := quatMultiply (quatInvert par.worldQuaternion) c.cameraQuaternion
  (lockedPos, lockedQuat)

/-- One PhotoGroup frame callback: update focusProgress by the smoothed
step with blend factor 10 * delta and the snap rule; if the result is below
0.001, sit at the tree pose and clear the locked cache; otherwise compute
the tree pose, take the cached locked pose when progress is at least 0.99
and a cache exists, else compute it fresh (caching it when progress is at
least 0.99 and a parent exists, falling back to the tree pose without a
parent), and emit the pose interpolated between tree and locked by the new
progress (positions and scales linearly, orientations by slerp). -/
def photoFrame (setFromEuler : Vec3 → QuatQ) (mid : QuatQ → QuatQ → ℚ → QuatQ)
    (photo : PhotoData) (s : PhotoState) (c : PhotoFrameInput) : PhotoState × Pose :=
  let targetProgress : ℚ := if c.focusedId = some photo.id then 1 else 0
  let progress := photoProgressStep s.progress targetProgress (10 * c.delta)
  let activeDispersion := if c.mode = InteractionMode.gesture then c.dispersion else 0
  if progress < 0.001 then
    ({ progress := progress, locked := none },
     { position := photoTreePosition photo activeDispersion
       quaternion := setFromEuler photo.rotation
       scale := photoTreeScale activeDispersion })
  else
    let treePos := photoTreePosition photo activeDispersion
    let treeQuat := setFromEuler photo.rotation
    let treeScale := photoTreeScale activeDispersion
    let lockedScale : Vec3 := { x := 3, y := 3, z := 3 }
    let freshData : Vec3 × QuatQ × Option LockedState :=
      match c.parent with
      | some par =>
          let f := photoLockedFresh c par
          (f.1, f.2,
            if progress ≥ 0.99 then
              some { pos := f.1, quat := f.2, scale := lockedScale }
            else s.locked)
      | none => (treePos, treeQuat, s.locked)
    let lockedData : Vec3 × QuatQ × Option LockedState :=
      match s.locked with
      | some L => if progress ≥ 0.99 then (L.pos, L.quat, some L) else freshData
      | none => freshData
    ({ progress := progress, locked := lockedData.2.2 },
     { position := lerpVectors treePos lockedData.1 progress
       quaternion := slerpQuaternions mid treeQuat lockedData.2.1 progress
       scale := lerpVectors treeScale lockedScale progress })

/-- The rendered poses over a list of frame inputs. -/
def photoRunPoses (setFromEuler : Vec3 → QuatQ) (mid : QuatQ → QuatQ → ℚ → QuatQ)
    (photo : PhotoData) : PhotoState → List PhotoFrameInput → List Pose
  | _, [] => []
  | s, c :: cs =>
      let r := photoFrame setFromEuler mid photo s c
      r.2 :: photoRunPoses setFromEuler mid photo r.1 cs

theorem photoFrame_progress (setFromEuler : Vec3 → QuatQ)
    (mid : QuatQ → QuatQ → ℚ → QuatQ) (photo : PhotoData) (s : PhotoState)
    (c : PhotoFrameInput) :
    (photoFrame setFromEuler mid photo s c).1.progress =
      photoProgressStep s.progress (if c.focusedId = some photo.id then 1 else 0)
        (10 * c.delta) := by
  unfold photoFrame
  dsimp only
  split <;> split <;> rfl

theorem lerpVectors_one (a b : Vec3) : lerpVectors a b 1 = b := by
  cases b with
  | mk bx bcy bz =>
      unfold lerpVectors
      dsimp only
      simp only [Vec3.mk.injEq]
      exact ⟨by ring, by ring, by ring⟩

theorem slerpQuaternions_one (mid : QuatQ → QuatQ → ℚ → QuatQ) (qa qb : QuatQ) :
    slerpQuaternions mid qa qb 1 = qb := by
  unfold slerpQuaternions
  rw [if_neg (by norm_num), if_pos rfl]

/-- C1: on any PhotoGroup frame in which the selection logic has set
focusedId to object A (and under the per-frame blend factor 10 * delta in
(0, 1] and progress values in [0, 1]), A's focusProgress is non-decreasing
and stays at most 1, every other object's focusProgress is non-increasing
and stays at least 0, and no two distinct objects' progress values both
increase on the same frame. -/
theorem photoGroup_single_focus_monotone (setFromEuler : Vec3 → QuatQ)
    (mid : QuatQ → QuatQ → ℚ → QuatQ) :
    (∀ (photo : PhotoData) (s : PhotoState) (c : PhotoFrameInput),
      c.focusedId = some photo.id → 0 ≤ s.progress → s.progress ≤ 1 →
      0 < 10 * c.delta → 10 * c.delta ≤ 1 →
      s.progress ≤ (photoFrame setFromEuler mid photo s c).1.progress ∧
      (photoFrame setFromEuler mid photo s c).1.progress ≤ 1) ∧
    (∀ (photo : PhotoData) (s : PhotoState) (c : PhotoFrameInput),
      ¬ c.focusedId = some photo.id → 0 ≤ s.progress → s.progress ≤ 1 →
      0 < 10 * c.delta → 10 * c.delta ≤ 1 →
      (photoFrame setFromEuler mid photo s c).1.progress ≤ s.progress ∧
      0 ≤ (photoFrame setFromEuler mid photo s c).1.progress) ∧
    (∀ (p1 p2 : PhotoData) (s1 s2 : PhotoState) (c : PhotoFrameInput),
      p1.id ≠ p2.id → 0 ≤ s1.progress → s1.progress ≤ 1 →
      0 ≤ s2.progress → s2.progress ≤ 1 → 0 < 10 * c.delta → 10 * c.delta ≤ 1 →
      ¬(s1.progress < (photoFrame setFromEuler mid p1 s1 c).1.progress ∧
        s2.progress < (photoFrame setFromEuler mid p2 s2 c).1.progress)) := by
  have hdown : ∀ (photo : PhotoData) (s : PhotoState) (c : PhotoFrameInput),
      ¬ c.focusedId = some photo.id → 0 ≤ s.progress → 0 ≤ 10 * c.delta →
      (photoFrame setFromEuler mid photo s c).1.progress ≤ s.progress := by
    intro photo s c hfoc hp0 hb0
    rw [photoFrame_progress, if_neg hfoc]
    exact photoProgressStep_target_zero_le hp0 hb0
  refine ⟨?_, ?_, ?_⟩
  · intro photo s c hfoc hp0 hp1 hb0 hb1
    rw [photoFrame_progress, if_pos hfoc]
    exact ⟨photoProgressStep_target_one_le hp1 (by linarith),
      photoProgressStep_target_one_ub hp1 hb1⟩
  · intro photo s c hfoc hp0 hp1 hb0 hb1
    rw [photoFrame_progress, if_neg hfoc]
    exact ⟨photoProgressStep_target_zero_le hp0 (by linarith),
      photoProgressStep_target_zero_lb hp0 hb1⟩
  · intro p1 p2 s1 s2 c hne h10 h11 h20 h21 hb0 hb1
    intro hboth
    by_cases hf1 : c.focusedId = some p1.id
    · have hf2 : ¬ c.focusedId = some p2.id := by
        rw [hf1]
        intro hcon
        exact hne (Option.some.inj hcon)
      have := hdown p2 s2 c hf2 h20 (by linarith)
      exact absurd hboth.2 (not_lt.mpr this)
    · have := hdown p1 s1 c hf1 h10 (by linarith)
      exact absurd hboth.1 (not_lt.mpr this)

/-- C1 witness: a focused photo's progress does not decrease and stays
within bounds at a concrete frame. -/
theorem photoGroup_single_focus_monotone_check :
    (1 : ℚ) / 2 ≤ (photoFrame (fun _ => QuatQ.mk 0 0 0 1) (fun qa _ _ => qa)
      (PhotoData.mk 1 ⟨4, 0, 3⟩ ⟨0, 0, 0⟩) (PhotoState.mk (1/2) none)
      (PhotoFrameInput.mk 0 (some 1) InteractionMode.gesture (1/20)
        ⟨0, 0, 25⟩ ⟨0, 0, 0, 1⟩ none)).1.progress ∧
    (photoFrame (fun _ => QuatQ.mk 0 0 0 1) (fun qa _ _ => qa)
      (PhotoData.mk 1 ⟨4, 0, 3⟩ ⟨0, 0, 0⟩) (PhotoState.mk (1/2) none)
      (PhotoFrameInput.mk 0 (some 1) InteractionMode.gesture (1/20)
        ⟨0, 0, 25⟩ ⟨0, 0, 0, 1⟩ none)).1.progress ≤ 1 :=
  (photoGroup_single_focus_monotone (fun _ => QuatQ.mk 0 0 0 1) (fun qa _ _ => qa)).1
    (PhotoData.mk 1 ⟨4, 0, 3⟩ ⟨0, 0, 0⟩) (PhotoState.mk (1/2) none)
    (PhotoFrameInput.mk 0 (some 1) InteractionMode.gesture (1/20)
      ⟨0, 0, 25⟩ ⟨0, 0, 0, 1⟩ none)
    rfl (by norm_num) (by norm_num) (by norm_num) (by norm_num)

theorem photoProgressStep_snap_one {p b : ℚ} (hp99 : 0.99 ≤ p) (hp1 : p ≤ 1)
    (hb0 : 0 < b) (hb1 : b ≤ 1) : photoProgressStep p 1 b = 1 := by
  unfold photoProgressStep mathLerp
  dsimp only
  rw [if_pos]
  have heq : (1 - b) * p + b * 1 - 1 = (1 - b) * (p - 1) := by ring
  rw [heq, abs_mul, abs_of_nonneg (by linarith : (0:ℚ) ≤ 1 - b),
    abs_of_nonpos (by linarith : p - 1 ≤ 0)]
  rcases eq_or_lt_of_le hp1 with he | hl
  · rw [he]
    norm_num
  · nlinarith

/-- identity scene-graph parent data used by the concrete counterexample
frames below. -/
def idParentCex : ParentFrame :=
  ParentFrame.mk ⟨1, 0, 0, 0, 0, 1, 0, 0, 0, 0, 1, 0, 0, 0, 0, 1⟩ ⟨0, 0, 0, 1⟩

/-- one overshooting frame: focus held on photo 0, a 0.3 s frame delta
(blend factor 3), camera fixed at (0, 0, 25) with identity orientation. -/
def frameOvershoot : PhotoFrameInput :=
  PhotoFrameInput.mk 0 (some 0) InteractionMode.gesture (3/10)
    ⟨0, 0, 25⟩ ⟨0, 0, 0, 1⟩ (some idParentCex)

/-- one ordinary frame: same focus and camera, a 10 ms frame delta. -/
def frameNormal : PhotoFrameInput :=
  PhotoFrameInput.mk 0 (some 0) InteractionMode.gesture (1/100)
    ⟨0, 0, 25⟩ ⟨0, 0, 0, 1⟩ (some idParentCex)

/-- the concrete photo of the counterexample frames. -/
def photoCex : PhotoData := PhotoData.mk 0 ⟨4, 0, 3⟩ ⟨0, 0, 0⟩

/-- the locked pose the overshooting frame caches: 10 units in front of
the camera at (0, 0, 25), facing it. -/
def lockCex : LockedState := LockedState.mk ⟨0, 0, 15⟩ ⟨0, 0, 0, 1⟩ ⟨3, 3, 3⟩

/-- C2 counterexample: the blend factor 10 * delta is unclamped, so the
claim as frozen (no frame-delta condition) fails on the code. With focus
held on the photo and the camera never moving, a single 0.3 s frame from
mid-transition progress 0.5 overshoots focusProgress to 2 — thereby
reaching at least 0.99 — and caches the locked pose; the two following
ordinary 10 ms frames leave focusedId and the camera unchanged, yet render
different poses (progress decays 2 → 1.9 → 1.81 without snapping, giving
positions (-18/5, 0, 129/5) and then (-81/25, 0, 618/25)), so the rendered
pose is not identical on all subsequent frames. -/
theorem locked_pose_drift_counterexample :
    0.99 ≤ (photoFrame (fun _ => QuatQ.mk 0 0 0 1) (fun qa _ _ => qa) photoCex
      (PhotoState.mk (1/2) none) frameOvershoot).1.progress ∧
    (photoFrame (fun _ => QuatQ.mk 0 0 0 1) (fun qa _ _ => qa) photoCex
      (PhotoState.mk (1/2) none) frameOvershoot).1 =
        PhotoState.mk 2 (some lockCex) ∧
    (photoFrame (fun _ => QuatQ.mk 0 0 0 1) (fun qa _ _ => qa) photoCex
      (PhotoState.mk 2 (some lockCex)) frameNormal).1 =
        PhotoState.mk (19/10) (some lockCex) ∧
    (photoFrame (fun _ => QuatQ.mk 0 0 0 1) (fun qa _ _ => qa) photoCex
      (PhotoState.mk 2 (some lockCex)) frameNormal).2.position =
        Vec3.mk (-18/5) 0 (129/5) ∧
    (photoFrame (fun _ => QuatQ.mk 0 0 0 1) (fun qa _ _ => qa) photoCex
      (PhotoState.mk (19/10) (some lockCex)) frameNormal).2.position =
        Vec3.mk (-81/25) 0 (618/25) ∧
    Vec3.mk (-18/5 : ℚ) 0 (129/5) ≠ Vec3.mk (-81/25) 0 (618/25) := by
  have habs1 : |(9:ℚ)/10| = 9/10 := abs_of_nonneg (by norm_num)
  have habs2 : |(81:ℚ)/100| = 81/100 := abs_of_nonneg (by norm_num)
  have h0 : (photoFrame (fun _ => QuatQ.mk 0 0 0 1) (fun qa _ _ => qa) photoCex
      (PhotoState.mk (1/2) none) frameOvershoot).1 = PhotoState.mk 2 (some lockCex) := by
    norm_num [photoFrame, photoProgressStep, mathLerp, photoTreePosition, photoTreeScale,
      photoLockedFresh, applyQuaternion, applyMatrix4, vecAdd, vecMulScalar, quatMultiply,
      quatInvert, frameOvershoot, photoCex, idParentCex, lockCex]
  refine ⟨by rw [h0]; norm_num, h0, ?_, ?_, ?_, ?_⟩
  · norm_num [photoFrame, photoProgressStep, mathLerp, frameNormal, photoCex, lockCex, habs1]
  · norm_num [photoFrame, photoProgressStep, mathLerp, photoTreePosition, photoTreeScale,
      lerpVectors, frameNormal, photoCex, lockCex, habs1]
  · norm_num [photoFrame, photoProgressStep, mathLerp, photoTreePosition, photoTreeScale,
      lerpVectors, frameNormal, photoCex, lockCex, habs2]
  · simp only [ne_eq, Vec3.mk.injEq]
    norm_num

/-- C2 (amended): the claim holds in the bounded-blend regime the claims
ambient to C1 and C4 assume and that the rest of the transition maintains:
once a photo's focusProgress lies in [0.99, 1] with its locked pose cached
and focusedId keeps naming it with the per-frame blend factor 10 * delta
in (0, 1], every subsequent frame snaps progress to exactly 1, keeps the
cache, and renders exactly the cached pose with the fixed focused scale 3
— independently of the camera position and orientation, the dispersion,
and every other field of the frame input; moreover any frame whose
resulting progress is at least 0.99 under a present scene-graph parent
establishes the cache, and over any list of such subsequent frames every
rendered pose is that same cached pose. -/
theorem photoGroup_locked_pose_stable (setFromEuler : Vec3 → QuatQ)
    (mid : QuatQ → QuatQ → ℚ → QuatQ) (photo : PhotoData) :
    (∀ (s : PhotoState) (L : LockedState) (c : PhotoFrameInput),
      s.locked = some L → 0.99 ≤ s.progress → s.progress ≤ 1 →
      c.focusedId = some photo.id → 0 < 10 * c.delta → 10 * c.delta ≤ 1 →
      photoFrame setFromEuler mid photo s c =
        (PhotoState.mk 1 (some L), Pose.mk L.pos L.quat ⟨3, 3, 3⟩)) ∧
    (∀ (s : PhotoState) (c : PhotoFrameInput) (par : ParentFrame),
      c.parent = some par →
      0.99 ≤ (photoFrame setFromEuler mid photo s c).1.progress →
      (photoFrame setFromEuler mid photo s c).1.locked ≠ none) ∧
    (∀ (L : LockedState) (cs : List PhotoFrameInput) (s : PhotoState),
      s.locked = some L → 0.99 ≤ s.progress → s.progress ≤ 1 →
      (∀ c ∈ cs, c.focusedId = some photo.id ∧ 0 < 10 * c.delta ∧
        10 * c.delta ≤ 1) →
      ∀ pose ∈ photoRunPoses setFromEuler mid photo s cs,
        pose = Pose.mk L.pos L.quat ⟨3, 3, 3⟩) := by
  have hstable : ∀ (s : PhotoState) (L : LockedState) (c : PhotoFrameInput),
      s.locked = some L → 0.99 ≤ s.progress → s.progress ≤ 1 →
      c.focusedId = some photo.id → 0 < 10 * c.delta → 10 * c.delta ≤ 1 →
      photoFrame setFromEuler mid photo s c =
        (PhotoState.mk 1 (some L), Pose.mk L.pos L.quat ⟨3, 3, 3⟩) := by
    intro s L c hlock hp99 hp1 hfoc hb0 hb1
    obtain ⟨prog, locked⟩ := s
    subst hlock
    have hstep : photoProgressStep prog
        (if c.focusedId = some photo.id then 1 else 0) (10 * c.delta) = 1 := by
      rw [if_pos hfoc]
      exact photoProgressStep_snap_one hp99 hp1 hb0 hb1
    unfold photoFrame
    dsimp only
    rw [hstep]
    rw [if_neg (by norm_num : ¬ (1:ℚ) < 0.001)]
    rw [if_pos (by norm_num : (1:ℚ) ≥ 0.99)]
    dsimp only
    rw [lerpVectors_one, lerpVectors_one, slerpQuaternions_one]
  refine ⟨hstable, ?_, ?_⟩
  · intro s c par hpar h99
    rw [photoFrame_progress] at h99
    obtain ⟨prog, locked⟩ := s
    unfold photoFrame
    dsimp only
    rw [if_neg (by
      intro hsmall
      rw [show (0.99 : ℚ) = 99/100 from by norm_num] at h99
      rw [show (0.001 : ℚ) = 1/1000 from by norm_num] at hsmall
      linarith)]
    dsimp only
    cases locked with
    | some L =>
        dsimp only
        simp only [ge_iff_le]
        rw [if_pos h99]
        simp
    | none =>
        rw [hpar]
        simp only [ge_iff_le]
        rw [if_pos h99]
        simp
  · intro L cs
    induction cs with
    | nil =>
        intro s _ _ _ _ pose hpose
        exact absurd hpose (List.not_mem_nil pose)
    | cons c cs ih =>
        intro s hlock hp99 hp1 hconds pose hpose
        have hc := hconds c (List.mem_cons_self c cs)
        have hframe := hstable s L c hlock hp99 hp1 hc.1 hc.2.1 hc.2.2
        rw [photoRunPoses] at hpose
        rw [hframe] at hpose
        dsimp only at hpose
        rcases List.mem_cons.mp hpose with h | h
        · exact h
        · exact ih (PhotoState.mk 1 (some L)) rfl (by norm_num) (by norm_num)
            (fun t ht => hconds t (List.mem_cons_of_mem c ht)) pose h

/-- C2 witness: a concrete fully focused photo with a cached lock renders
exactly the cached pose on the next frame. -/
theorem photoGroup_locked_pose_stable_check :
    photoFrame (fun _ => QuatQ.mk 0 0 0 1) (fun qa _ _ => qa)
      (PhotoData.mk 2 ⟨4, 0, 3⟩ ⟨0, 0, 0⟩)
      (PhotoState.mk 1 (some (LockedState.mk ⟨1, 2, 3⟩ ⟨0, 0, 0, 1⟩ ⟨3, 3, 3⟩)))
      (PhotoFrameInput.mk (1/4) (some 2) InteractionMode.gesture (1/20)
        ⟨7, -2, 25⟩ ⟨0, 1, 0, 0⟩ none) =
      (PhotoState.mk 1 (some (LockedState.mk ⟨1, 2, 3⟩ ⟨0, 0, 0, 1⟩ ⟨3, 3, 3⟩)),
       Pose.mk ⟨1, 2, 3⟩ ⟨0, 0, 0, 1⟩ ⟨3, 3, 3⟩) :=
  (photoGroup_locked_pose_stable (fun _ => QuatQ.mk 0 0 0 1) (fun qa _ _ => qa)
      (PhotoData.mk 2 ⟨4, 0, 3⟩ ⟨0, 0, 0⟩)).1
    (PhotoState.mk 1 (some (LockedState.mk ⟨1, 2, 3⟩ ⟨0, 0, 0, 1⟩ ⟨3, 3, 3⟩)))
    (LockedState.mk ⟨1, 2, 3⟩ ⟨0, 0, 0, 1⟩ ⟨3, 3, 3⟩)
    (PhotoFrameInput.mk (1/4) (some 2) InteractionMode.gesture (1/20)
      ⟨7, -2, 25⟩ ⟨0, 1, 0, 0⟩ none)
    rfl (by norm_num) (by norm_num) rfl (by norm_num) (by norm_num)
